import Mathlib

/-!
# Verification of the `mrt` media renaming tool

A shallow embedding, in Lean 4, of the core of the `mrt` repository
(`src/parser.ts`, `src/wet.ts`, `src/dry.ts`): the static filename parser,
the path canonicalizer (media-root detection and de-nesting), the rename
manifest parser, the wet-mode applier and the dry-mode manifest builder.

Conventions of the embedding:
* JavaScript strings are Lean `String`s (ASCII fragment; `toLowerCase`,
  `toUpperCase` and `trim` are modelled on the ASCII subset actually used
  by the repository's data).
* The regexes of `parser.ts` are embedded as a small regular-expression
  AST (`RE`) interpreted by a fuel-driven backtracking matcher `mmatch`
  that follows the JavaScript engine's semantics for these patterns
  (leftmost match, greedy/lazy quantifiers, ordered alternation,
  last-wins capture groups); the fuel bounds the nesting depth of the
  search, which for these patterns is linear in the input, and is chosen
  generously.
* `new Date().getFullYear()` is a parameter `currentYear`.
* Filesystem effects are oracles: directory listings are a function
  `String → List (String × Bool)` (name, isFile) and the external AI
  fallback is a function `String → Option MediaInfo`; a `readdir` failure
  is the oracle returning `[]` (the code swallows the failure and returns
  no associated files).  The wet-mode filesystem is a list of existing
  paths (`fs.access` = membership, `fs.rename` = remove/add,
  `fs.mkdir { recursive: true }` = no-op).
* Functions that `throw` return `Except String α`.
* Paths contain no `.`/`..` segments (true of every path the claims
  touch), so `path.join`'s normalization is modelled as collapsing runs
  of slashes.
-/

namespace Mrt

/-! ## JavaScript character classes and string primitives -/

/-- JS `\s` restricted to the ASCII whitespace the repository manipulates. -/
def isJsSpace (c : Char) : Bool :=
  c = ' ' || c = '\t' || c = '\n' || c = '\r' || c = '\x0b' || c = '\x0c'

/-- The character class `[\s._-]` used throughout `parser.ts`. -/
def isSepChar (c : Char) : Bool :=
  isJsSpace c || c = '.' || c = '_' || c = '-'

/-- JS `\d`, i.e. `[0-9]`. -/
def isDigitChar (c : Char) : Bool := '0' ≤ c && c ≤ '9'

/-- JS `.` (without the `s` flag): any character except a line terminator. -/
def isAnyNoNL (c : Char) : Bool := !(c = '\n' || c = '\r')

/-- JS `String.prototype.toLowerCase` (ASCII). -/
def lowerStr (s : String) : String := String.mk (s.toList.map Char.toLower)

/-- JS `String.prototype.trim` (ASCII whitespace). -/
def jsTrimList (l : List Char) : List Char :=
  ((l.dropWhile isJsSpace).reverse.dropWhile isJsSpace).reverse

def jsTrim (s : String) : String := String.mk (jsTrimList s.toList)

/-- JS `s.slice(0, -n)` as used on string lengths: for `n = 0` the result is
`s.slice(0, -0) = s.slice(0, 0) = ""` (the `-0 === 0` footgun, relevant in
`dry.ts` where the slice is not guarded), otherwise the last `n` characters
are removed. -/
def jsSliceToNeg (s : String) (n : Nat) : String :=
  if n = 0 then "" else String.mk (s.toList.take (s.length - n))

/-- JS `a.startsWith(b)`. -/
def strStarts (a b : String) : Bool := b.toList.isPrefixOf a.toList

/-- Split a character list at every character satisfying `p` (JS
`String.prototype.split` with a single-character-class regex: empty pieces
are kept). -/
def splitPred (p : Char → Bool) : List Char → List (List Char)
  | [] => [[]]
  | c :: cs =>
    match splitPred p cs with
    | [] => [[]]
    | g :: gs => if p c then [] :: g :: gs else (c :: g) :: gs

/-- Interleave a separator character between the pieces (JS `Array.join`). -/
def joinCh (sep : Char) : List (List Char) → List Char
  | [] => []
  | [g] => g
  | g :: g2 :: gs => g ++ sep :: joinCh sep (g2 :: gs)

/-- `filePath.split(path.sep)` with `path.sep = "/"`. -/
def splitSlash (s : String) : List String :=
  (splitPred (fun c => c = '/') s.toList).map String.mk

/-- `parts.join(path.sep)`. -/
def joinSlash (ps : List String) : String :=
  String.mk (joinCh '/' (ps.map String.toList))

/-! ## `path` module (Node.js, posix) -/

/-- `path.basename`: the last non-empty path component. -/
def pathBasename (s : String) : String :=
  (((splitSlash s).reverse).find? (fun p => p != "")).getD ""

/-- Index of the last `'.'` in a list of characters. -/
def lastDotIdx (l : List Char) : Option Nat :=
  match l.reverse.findIdx? (fun c => c = '.') with
  | none => none
  | some j => some (l.length - 1 - j)

/-- `path.extname` (posix): the suffix of the basename from its last dot,
empty when there is no dot, when the dot is the basename's first character,
or when the basename is exactly `".."`. -/
def pathExtname (s : String) : String :=
  let b := (pathBasename s).toList
  match lastDotIdx b with
  | none => ""
  | some i => if i = 0 then "" else if b = ['.', '.'] then "" else String.mk (b.drop i)

/-- `path.dirname` (posix): everything before the last slash that is
followed by a non-slash character, with Node's special cases for roots. -/
def pathDirname (s : String) : String :=
  if s = "" then "." else
  let cs := s.toList
  let hasRoot := cs.head? = some '/'
  let rev2 := (cs.reverse.dropWhile (fun c => c = '/')).dropWhile (fun c => c != '/')
  if rev2.length ≤ 1 then (if hasRoot then "/" else ".")
  else if hasRoot && rev2.length = 2 then "//"
  else String.mk (cs.take (rev2.length - 1))

/-- Replace every run of characters satisfying `p` by the single character
`rep` (structurally recursive: the flag records whether we are inside a
run). -/
def collapseRun (p : Char → Bool) (rep : Char) : Bool → List Char → List Char
  | _, [] => []
  | inRun, c :: cs =>
    if p c then
      (if inRun then collapseRun p rep true cs else rep :: collapseRun p rep true cs)
    else c :: collapseRun p rep false cs

/-- Collapse every run of slashes to a single slash (the fragment of
`path.normalize` relevant to paths without `.`/`..` segments). -/
def collapseSlashes (l : List Char) : List Char :=
  collapseRun (fun c => c = '/') '/' false l

/-- `path.join(a, b)` (posix) for paths free of `.`/`..` segments. -/
def pathJoin (a b : String) : String :=
  if a = "" && b = "" then "."
  else if a = "" then String.mk (collapseSlashes b.toList)
  else if b = "" then String.mk (collapseSlashes a.toList)
  else String.mk (collapseSlashes (a.toList ++ '/' :: b.toList))

/-! ## String helpers of `parser.ts` -/

/-- Collapse each run of `[\s._-]` characters to one space
(`replace(/[\s._-]+/g, ' ')`). -/
def collapseSepRuns (l : List Char) : List Char :=
  collapseRun isSepChar ' ' false l

/-- Collapse each run of whitespace to one space (`replace(/\s+/g, ' ')`). -/
def collapseWsRuns (l : List Char) : List Char :=
  collapseRun isJsSpace ' ' false l

/-- `normalizeForComparison`: lowercase, collapse separator runs to spaces,
trim. -/
def normalizeForComparison (s : String) : String :=
  String.mk (jsTrimList (collapseSepRuns (s.toList.map Char.toLower)))

/-- `replace(/\s*\(\d{4}\)\s*$/, '')`: remove a trailing parenthesized
4-digit year together with the whitespace around it. -/
def stripParenYearEnd (l : List Char) : List Char :=
  match (l.reverse.dropWhile isJsSpace : List Char) with
  | ')' :: d1 :: d2 :: d3 :: d4 :: '(' :: rest =>
    if isDigitChar d1 && isDigitChar d2 && isDigitChar d3 && isDigitChar d4 then
      ((rest.dropWhile isJsSpace).reverse : List Char)
    else l
  | _ => l

/-- `replace(/\s+\d{4}\s*$/, '')`: remove a trailing bare 4-digit year that
is preceded by whitespace (the whole whitespace run is consumed). -/
def stripBareYearEnd (l : List Char) : List Char :=
  match (l.reverse.dropWhile isJsSpace : List Char) with
  | d1 :: d2 :: d3 :: d4 :: c :: rest =>
    if isDigitChar d1 && isDigitChar d2 && isDigitChar d3 && isDigitChar d4
        && isJsSpace c then
      (((c :: rest).dropWhile isJsSpace).reverse : List Char)
    else l
  | _ => l

/-- `stripTrailingYear`: strip `"(YYYY)"` then bare `"YYYY"` then trim. -/
def stripTrailingYear (s : String) : String :=
  String.mk (jsTrimList (stripBareYearEnd (stripParenYearEnd s.toList)))

/-- `isSimilar`: equal after normalization, or equal after stripping
trailing years and normalizing. -/
def isSimilar (a b : String) : Bool :=
  (normalizeForComparison a == normalizeForComparison b)
  || (normalizeForComparison (stripTrailingYear a)
        == normalizeForComparison (stripTrailingYear b))

/-- Capitalization of one word in `cleanTitle`:
`word.charAt(0).toUpperCase() + word.slice(1).toLowerCase()`. -/
def capitalizeWord : List Char → List Char
  | [] => []
  | c :: rest => Char.toUpper c :: rest.map Char.toLower

/-- `cleanTitle`: dots/underscores to spaces, collapse whitespace, trim,
split on space/hyphen, capitalize each word, join with spaces. -/
def cleanTitle (s : String) : String :=
  let step1 := s.toList.map (fun c => if c = '.' || c = '_' then ' ' else c)
  let words := splitPred (fun c => isJsSpace c || c = '-') (jsTrimList (collapseWsRuns step1))
  String.mk (joinCh ' ' (words.map capitalizeWord))

/-- The test `/^Season\s+\d+$/i`. -/
def isSeasonFolder (s : String) : Bool :=
  match (s.toList.map Char.toLower : List Char) with
  | 's' :: 'e' :: 'a' :: 's' :: 'o' :: 'n' :: rest =>
    let digits := rest.dropWhile isJsSpace
    rest.takeWhile isJsSpace ≠ [] && digits ≠ [] && digits.all isDigitChar
  | _ => false

/-- `n.toString().padStart(2, '0')`. -/
def padStart2Zero (s : String) : String :=
  if s.length ≥ 2 then s else String.mk (List.replicate (2 - s.length) '0') ++ s

/-- `VALID_VIDEO_EXTENSIONS` (lowercase; membership tests lowercase first). -/
def VALID_VIDEO_EXTENSIONS : List String :=
  [".mkv", ".mp4", ".avi", ".mov", ".wmv", ".flv", ".m4v", ".ts"]

/-- `ASSOCIATED_FILE_EXTENSIONS` of `dry.ts`. -/
def ASSOCIATED_FILE_EXTENSIONS : List String :=
  [".srt", ".sub", ".idx", ".ass", ".ssa", ".vtt", ".nfo",
   ".jpg", ".jpeg", ".png", ".tbn", ".txt"]

/-! ## A small regex AST and backtracking matcher

The three regexes of `parseFilename` use character classes, ordered
alternation, greedy/lazy bounded repetition, capture groups and the `$`
anchor.  `mmatch` is a continuation-passing backtracking matcher for this
fragment with JavaScript semantics; `fuel` bounds the recursion depth
(linear in the input for these patterns) and is instantiated generously. -/

inductive RE where
  | eps
  | cls (p : Char → Bool)
  | seq (a b : RE)
  | alt (a b : RE)
  | rep (lo : Nat) (hi : Option Nat) (greedy : Bool) (a : RE)
  | grp (i : Nat) (a : RE)
  | endAnchor

/-- Captured groups, most recent binding first. -/
abbrev Caps := List (Nat × List Char)

def getCap (caps : Caps) (i : Nat) : Option (List Char) :=
  (caps.find? (fun p => p.1 == i)).map (·.2)

/-- The matcher.  `k` is the continuation receiving the remaining input and
the captures; repetition without an upper bound requires progress on each
iteration, as the JS engine does (the repeated bodies here always consume). -/
def mmatch : Nat → RE → List Char → Caps → (List Char → Caps → Option Caps) → Option Caps
  | 0, _, _, _, _ => none
  | _ + 1, .eps, cs, caps, k => k cs caps
  | _ + 1, .endAnchor, cs, caps, k => if cs.isEmpty then k cs caps else none
  | _ + 1, .cls p, cs, caps, k =>
    match cs with
    | [] => none
    | c :: rest => if p c then k rest caps else none
  | f + 1, .seq a b, cs, caps, k =>
    mmatch f a cs caps (fun cs2 caps2 => mmatch f b cs2 caps2 k)
  | f + 1, .alt a b, cs, caps, k =>
    match mmatch f a cs caps k with
    | some r => some r
    | none => mmatch f b cs caps k
  | f + 1, .grp i a, cs, caps, k =>
    mmatch f a cs caps
      (fun cs2 caps2 => k cs2 ((i, cs.take (cs.length - cs2.length)) :: caps2))
  | f + 1, .rep lo hi g a, cs, caps, k =>
    match lo with
    | l + 1 =>
      mmatch f a cs caps (fun cs2 caps2 => mmatch f (.rep l (hi.map (· - 1)) g a) cs2 caps2 k)
    | 0 =>
      match hi with
      | some 0 => k cs caps
      | _ =>
        if g then
          match mmatch f a cs caps (fun cs2 caps2 =>
              if cs2.length < cs.length then
                mmatch f (.rep 0 (hi.map (· - 1)) g a) cs2 caps2 k
              else none) with
          | some r => some r
          | none => k cs caps
        else
          match k cs caps with
          | some r => some r
          | none =>
            mmatch f a cs caps (fun cs2 caps2 =>
              if cs2.length < cs.length then
                mmatch f (.rep 0 (hi.map (· - 1)) g a) cs2 caps2 k
              else none)

/-- Run an anchored-at-start regex against a string; the remainder after the
pattern is unconstrained (a `$` inside the pattern constrains it). -/
def execRE (re : RE) (s : String) : Option Caps :=
  let cs := s.toList
  mmatch (2000 + 200 * cs.length) re cs [] (fun _ caps => some caps)

/-- Case-insensitive literal word, as a regex. -/
def wordCI (w : String) : RE :=
  w.toList.foldr (fun c acc => RE.seq (.cls (fun x => x.toLower = c.toLower)) acc) .eps

def seps0 : RE := .rep 0 none true (.cls isSepChar)

/-- `/^(.+?)[\s._-]*[Ss](\d{1,2})[Ee](\d{1,2})(?:[\s._-]*(.+?))?(?:[\s._-]*(AMZN|WebRIP|WEBRip|BluRay|HDTV|1080p|720p|480p).*)?$/i` -/
def tvRE : RE :=
  .seq (.grp 1 (.rep 1 none false (.cls isAnyNoNL)))
  (.seq seps0
  (.seq (.cls (fun c => c = 's' || c = 'S'))
  (.seq (.grp 2 (.rep 1 (some 2) true (.cls isDigitChar)))
  (.seq (.cls (fun c => c = 'e' || c = 'E'))
  (.seq (.grp 3 (.rep 1 (some 2) true (.cls isDigitChar)))
  (.seq (.rep 0 (some 1) true (.seq seps0 (.grp 4 (.rep 1 none false (.cls isAnyNoNL)))))
  (.seq (.rep 0 (some 1) true
          (.seq seps0 (.seq (.grp 5
            ([wordCI "AMZN", wordCI "WebRIP", wordCI "WEBRip", wordCI "BluRay",
              wordCI "HDTV", wordCI "1080p", wordCI "720p",
              wordCI "480p"].foldr RE.alt (.cls (fun _ => false))))
            (.rep 0 none true (.cls isAnyNoNL)))))
  .endAnchor)))))))

/-- `/^(.+?)[\s._-]*\((\d{4})\)/` -/
def movieParenRE : RE :=
  .seq (.grp 1 (.rep 1 none false (.cls isAnyNoNL)))
  (.seq seps0
  (.seq (.cls (fun c => c = '('))
  (.seq (.grp 2 (.rep 4 (some 4) true (.cls isDigitChar)))
  (.cls (fun c => c = ')')))))

/-- `/^(.+?)[\s._-]+(\d{4})(?:[\s._-]|$)/` -/
def bareYearRE : RE :=
  .seq (.grp 1 (.rep 1 none false (.cls isAnyNoNL)))
  (.seq (.rep 1 none true (.cls isSepChar))
  (.seq (.grp 2 (.rep 4 (some 4) true (.cls isDigitChar)))
  (.alt (.cls isSepChar) .endAnchor)))

/-- `parseInt(digits, 10)` on a non-empty all-digit capture. -/
def parseDigits (l : List Char) : Nat :=
  l.foldl (fun a c => a * 10 + (c.toNat - '0'.toNat)) 0

/-- The TV pattern's captures: title, season, episode, optional episode
title. -/
def tvMatch (s : String) : Option (String × Nat × Nat × Option String) :=
  match execRE tvRE s with
  | none => none
  | some caps =>
    match getCap caps 1, getCap caps 2, getCap caps 3 with
    | some t, some d2, some d3 =>
      some (String.mk t, parseDigits d2, parseDigits d3, (getCap caps 4).map String.mk)
    | _, _, _ => none

/-- The parenthesized-year movie pattern's captures: title and year. -/
def movieParenMatch (s : String) : Option (String × Nat) :=
  match execRE movieParenRE s with
  | none => none
  | some caps =>
    match getCap caps 1, getCap caps 2 with
    | some t, some d => some (String.mk t, parseDigits d)
    | _, _ => none

/-- The bare-year pattern's captures: title and year. -/
def bareYearMatch (s : String) : Option (String × Nat) :=
  match execRE bareYearRE s with
  | none => none
  | some caps =>
    match getCap caps 1, getCap caps 2 with
    | some t, some d => some (String.mk t, parseDigits d)
    | _, _ => none

/-! ## `parser.ts`: data model and static filename parser -/

inductive MediaType where
  | tv
  | movie
deriving DecidableEq, Repr

/-- The `MediaInfo` interface.  Numeric fields are natural numbers (the
static parser only ever produces results of `parseInt` on digit strings);
JavaScript treats the value `0` as falsy, which the embedding models
explicitly at each use site. -/
structure MediaInfo where
  type : MediaType
  title : String
  year : Option Nat := none
  season : Option Nat := none
  episode : Option Nat := none
  episodeTitle : Option String := none
  extension : String := ""
  originalPath : String := ""
deriving DecidableEq, Repr

/-- The extension `parseFilename` keeps: the raw extension when its
lowercase form is a recognized video extension, else `""`. -/
def extensionOf (filepath : String) : String :=
  let rawExtension := pathExtname (pathBasename filepath)
  if VALID_VIDEO_EXTENSIONS.contains (lowerStr rawExtension) then rawExtension else ""

/-- `nameWithoutExt` in `parseFilename`. -/
def nameWithoutExtOf (filepath : String) : String :=
  let basename := pathBasename filepath
  let extension := extensionOf filepath
  if extension != "" then String.mk (basename.toList.take (basename.length - extension.length))
  else basename

/-- `parseFilename`, with `new Date().getFullYear()` as the parameter
`currentYear`. -/
def parseFilename (currentYear : Nat) (filepath : String) : Option MediaInfo :=
  let extension := extensionOf filepath
  let nameWithoutExt := nameWithoutExtOf filepath
  match tvMatch nameWithoutExt with
  | some (t, s, e, et) =>
    some { type := .tv, title := cleanTitle t, season := some s, episode := some e,
           episodeTitle := et.map cleanTitle, extension := extension,
           originalPath := filepath }
  | none =>
  match movieParenMatch nameWithoutExt with
  | some (t, y) =>
    some { type := .movie, title := cleanTitle t, year := some y,
           extension := extension, originalPath := filepath }
  | none =>
  match bareYearMatch nameWithoutExt with
  | some (t, y) =>
    if 1900 ≤ y && y ≤ currentYear + 3 then
      some { type := .movie, title := cleanTitle t, year := some y,
             extension := extension, originalPath := filepath }
    else none
  | none => none

/-! ## `parser.ts`: Plex filename generation -/

/-- `generateTVFilename`; throws `'Invalid TV show info'` unless the type is
tv and season and episode are present and non-zero (`!info.season` is true
for both `undefined` and `0`). -/
def generateTVFilename (info : MediaInfo) : Except String String :=
  match info.type, info.season, info.episode with
  | .tv, some (s + 1), some (e + 1) =>
    let seasonNum := padStart2Zero (Nat.repr (s + 1))
    let episodeNum := padStart2Zero (Nat.repr (e + 1))
    let filename := info.title ++ " - S" ++ seasonNum ++ "E" ++ episodeNum
      ++ (match info.episodeTitle with
          | some t => if t = "" then "" else " - " ++ t
          | none => "")
      ++ info.extension
    let dirPath := info.title ++ "/Season " ++ seasonNum
    .ok (pathJoin dirPath filename)
  | _, _, _ => .error "Invalid TV show info"

/-- The movie folder name `` `${info.title} (${info.year})` `` (the year is
omitted when falsy, i.e. absent or `0`). -/
def movieFolderOf (info : MediaInfo) : String :=
  info.title ++ (match info.year with
    | some (y + 1) => " (" ++ Nat.repr (y + 1) ++ ")"
    | _ => "")

/-- `generateMovieFilename`; throws unless the type is movie. -/
def generateMovieFilename (info : MediaInfo) : Except String String :=
  match info.type with
  | .tv => .error "Invalid movie info"
  | .movie =>
    let yearPart := match info.year with
      | some (y + 1) => " (" ++ Nat.repr (y + 1) ++ ")"
      | _ => ""
    let filename := info.title ++ yearPart ++ info.extension
    let dirPath := info.title ++ yearPart
    .ok (pathJoin dirPath filename)

/-! ## `parser.ts`: media-root detection and de-nesting -/

/-- One iteration of the tv loop of `findMediaRoot` at index `i`:
a `Season NN` folder whose parent is similar to the title, or a folder
similar to the title. -/
def tvRootCheck (parts : List String) (title : String) (i : Nat) : Option String :=
  let part := parts.getD i ""
  if isSeasonFolder part && decide (0 < i) && isSimilar (parts.getD (i - 1) "") title then
    let rootParts := parts.take (i - 1)
    some (if 0 < rootParts.length then joinSlash rootParts else parts.getD 0 "")
  else if isSimilar part title then
    let rootParts := parts.take i
    some (if 0 < rootParts.length then joinSlash rootParts else parts.getD 0 "")
  else none

/-- The tv loop of `findMediaRoot`, walking indices downward. -/
def tvRootScan (parts : List String) (title originalDir : String) : Nat → String
  | 0 => (tvRootCheck parts title 0).getD originalDir
  | i + 1 =>
    match tvRootCheck parts title (i + 1) with
    | some r => r
    | none => tvRootScan parts title originalDir i

/-- One iteration of the movie loop of `findMediaRoot` at index `i`. -/
def movieRootCheck (parts : List String) (movieFolder title : String) (i : Nat) :
    Option String :=
  let part := parts.getD i ""
  if isSimilar part movieFolder || isSimilar part title then
    let rootParts := parts.take i
    some (if 0 < rootParts.length then joinSlash rootParts else parts.getD 0 "")
  else none

/-- The movie loop of `findMediaRoot`. -/
def movieRootScan (parts : List String) (movieFolder title originalDir : String) :
    Nat → String
  | 0 => (movieRootCheck parts movieFolder title 0).getD originalDir
  | i + 1 =>
    match movieRootCheck parts movieFolder title (i + 1) with
    | some r => r
    | none => movieRootScan parts movieFolder title originalDir i

/-- `findMediaRoot`. -/
def findMediaRoot (originalDir : String) (info : MediaInfo) : String :=
  let parts := splitSlash originalDir
  match info.type with
  | .tv => tvRootScan parts info.title originalDir (parts.length - 1)
  | .movie => movieRootScan parts (movieFolderOf info) info.title originalDir (parts.length - 1)

/-- The loop body of `fixDoubleNesting`.  `prev` is `parts[i-1]` (the
previous element of the *original* array, also when it was skipped), `acc`
is the `result` array in reverse (so `result.pop()` is `acc.tail`). -/
def fixDNGo : Option String → List String → List String → List String
  | _, acc, [] => acc.reverse
  | none, acc, cur :: rest => fixDNGo (some cur) (cur :: acc) rest
  | some p, acc, cur :: rest =>
    if isSimilar p cur then fixDNGo (some cur) acc rest
    else
      let prevNorm := normalizeForComparison p
      let currNorm := normalizeForComparison (String.mk (stripParenYearEnd cur.toList))
      if prevNorm == currNorm then fixDNGo (some cur) (cur :: acc.tail) rest
      else fixDNGo (some cur) (cur :: acc) rest

/-- `fixDoubleNesting`. -/
def fixDoubleNesting (filePath : String) : String :=
  joinSlash (fixDNGo none [] (splitSlash filePath))

/-- `generateNewPath`: relative layout from the identity, media root from
the original directory, join, de-nest. -/
def generateNewPath (info : MediaInfo) (basePath : String) : Except String String :=
  match (match info.type with
         | .tv => generateTVFilename info
         | .movie => generateMovieFilename info) with
  | .error e => .error e
  | .ok relativeNewPath =>
    let mediaRoot := findMediaRoot basePath info
    let fullPath := pathJoin mediaRoot relativeNewPath
    .ok (fixDoubleNesting fullPath)

/-! ## `wet.ts`: manifest parsing and application -/

/-- A rename entry (`interface Rename { from; to }`; `from` is a Lean
keyword, hence the `Path` suffix on the field names). -/
structure Rename where
  fromPath : String
  toPath : String
deriving DecidableEq, Repr

/-- The structural warnings `parseRenamesFile` can log. -/
inductive RenameWarn where
  | consecutiveMinus (line : Nat)
  | plusWithoutMinus (line : Nat)
  | invalidLine (line : Nat)
  | danglingMinusAtEnd
deriving DecidableEq, Repr

/-- The loop of `parseRenamesFile` over the (already filtered) lines:
given the pending `currentFrom` and the number of lines already processed,
produce the entries, the warnings, and the final `currentFrom`.
Note the source's asymmetry, kept here: the `'-'`-line warning tests
`currentFrom !== null` but the `'+'`-line pairing tests truthiness, so a
pending *empty* source (from a bare `"-"` line) does not pair. -/
def renLines : List String → Option String → Nat →
    List Rename × List RenameWarn × Option String
  | [], currentFrom, _ => ([], [], currentFrom)
  | line :: rest, currentFrom, lineNum =>
    let n := lineNum + 1
    if line.toList.head? = some '-' then
      let w : List RenameWarn :=
        match currentFrom with
        | some _ => [.consecutiveMinus n]
        | none => []
      let r := renLines rest (some (String.mk (line.toList.drop 1))) n
      (r.1, w ++ r.2.1, r.2.2)
    else if line.toList.head? = some '+' then
      match currentFrom with
      | some f =>
        if f = "" then
          -- truthiness: empty pending source behaves like none, and stays
          let r := renLines rest currentFrom n
          (r.1, .plusWithoutMinus n :: r.2.1, r.2.2)
        else
          let r := renLines rest none n
          (⟨f, String.mk (line.toList.drop 1)⟩ :: r.1, r.2.1, r.2.2)
      | none =>
        let r := renLines rest currentFrom n
        (r.1, .plusWithoutMinus n :: r.2.1, r.2.2)
    else
      let r := renLines rest currentFrom n
      (r.1, .invalidLine n :: r.2.1, r.2.2)

/-- `parseRenamesFile` from a list of lines (after the non-blank filter),
including the end-of-file dangling-`'-'` warning. -/
def parseRenamesLines (lines : List String) : List Rename × List RenameWarn :=
  let r := renLines lines none 0
  (r.1, r.2.1 ++ (match r.2.2 with | some _ => [.danglingMinusAtEnd] | none => []))

/-- `parseRenamesFile` from the file content: split on newlines, drop lines
that are blank after trimming. -/
def parseRenamesFile (content : String) : List Rename × List RenameWarn :=
  let lines := ((splitPred (fun c => c = '\n') content.toList).map String.mk).filter
    (fun line => jsTrim line != "")
  parseRenamesLines lines

/-- Per-entry outcome of the wet-mode loop. -/
inductive WetOutcome where
  | success
  | skippedDestExists
  | errored
deriving DecidableEq, Repr

/-- One iteration of `runWetMode`'s loop on the filesystem model: check the
source exists (else the surrounding `catch` counts an error), create the
destination directory (a no-op here), skip when the destination exists,
otherwise rename. -/
def wetStep (fs : List String) (r : Rename) : List String × WetOutcome :=
  if fs.contains r.fromPath then
    if fs.contains r.toPath then (fs, .skippedDestExists)
    else (fs.filter (fun p => p != r.fromPath) ++ [r.toPath], .success)
  else (fs, .errored)

/-- The wet-mode loop over the parsed entries. -/
def runWetRenames (fs : List String) : List Rename → List String × List WetOutcome
  | [] => (fs, [])
  | r :: rest =>
    let s := wetStep fs r
    let t := runWetRenames s.1 rest
    (t.1, s.2 :: t.2)

/-- `runWetMode` on a manifest text. -/
def runWetMode (fs : List String) (content : String) : List String × List WetOutcome :=
  runWetRenames fs (parseRenamesFile content).1

/-! ## `dry.ts`: associated files and the manifest builder -/

/-- `findAssociatedFiles`: sibling regular files whose lowercase extension
is an associated (and not a video) extension and whose base name matches or
extends the media file's base name.  `listDir` is the `fs.readdir` oracle
(entry name, `isFile`); a read failure is modelled by the oracle returning
`[]`, which the source maps to no associated files. -/
def findAssociatedFiles (listDir : String → List (String × Bool))
    (mediaFilePath : String) : List String :=
  let dir := pathDirname mediaFilePath
  let mediaBasename := pathBasename mediaFilePath
  let mediaExt := lowerStr (pathExtname mediaBasename)
  let mediaNameWithoutExt := jsSliceToNeg mediaBasename mediaExt.length
  ((listDir dir).filter (fun entry =>
    entry.2 &&
    (let ext := lowerStr (pathExtname entry.1)
     !VALID_VIDEO_EXTENSIONS.contains ext &&
     ASSOCIATED_FILE_EXTENSIONS.contains ext &&
     (let entryNameWithoutExt := jsSliceToNeg entry.1 ext.length
      entryNameWithoutExt == mediaNameWithoutExt ||
      strStarts entryNameWithoutExt (mediaNameWithoutExt ++ ".") ||
      strStarts entryNameWithoutExt (mediaNameWithoutExt ++ "-"))))).map
    (fun entry => pathJoin dir entry.1)

/-- `generateAssociatedFilePath`. -/
def generateAssociatedFilePath (associatedFile originalMediaFile newMediaPath : String) :
    String :=
  let newDir := pathDirname newMediaPath
  let originalMediaBasename := pathBasename originalMediaFile
  let originalMediaExt := pathExtname originalMediaBasename
  let originalMediaName := jsSliceToNeg originalMediaBasename originalMediaExt.length
  let newMediaBasename := pathBasename newMediaPath
  let newMediaExt := pathExtname newMediaBasename
  let newMediaName := jsSliceToNeg newMediaBasename newMediaExt.length
  let associatedBasename := pathBasename associatedFile
  let newAssociatedName :=
    if strStarts associatedBasename originalMediaName then
      newMediaName ++ String.mk (associatedBasename.toList.drop originalMediaName.length)
    else associatedBasename
  pathJoin newDir newAssociatedName

/-- The per-file loop of `runDryMode` (`dry.ts`, current revision): static
parse, AI fallback (`ai` is the `parseFilenameWithAI` oracle), skip on no
identity, skip tv records with `undefined` season or episode, generate the
new path (an exception aborts the whole run, as in the source, where
nothing catches it), and append the associated-file entries. -/
def runDryMode (ai : String → Option MediaInfo) (listDir : String → List (String × Bool))
    (currentYear : Nat) : List String → Except String (List Rename)
  | [] => .ok []
  | file :: rest =>
    let mediaInfo := match parseFilename currentYear file with
      | some mi => some mi
      | none => ai file
    match mediaInfo with
    | none => runDryMode ai listDir currentYear rest
    | some mi =>
      if mi.type = .tv && (mi.season = none || mi.episode = none) then
        runDryMode ai listDir currentYear rest
      else
        match generateNewPath mi (pathDirname file) with
        | .error e => .error e
        | .ok newPath =>
          let assoc := findAssociatedFiles listDir file
          let assocRenames := assoc.map
            (fun a => (⟨a, generateAssociatedFilePath a file newPath⟩ : Rename))
          match runDryMode ai listDir currentYear rest with
          | .error e => .error e
          | .ok rs => .ok (⟨file, newPath⟩ :: (assocRenames ++ rs))

end Mrt

deriving instance DecidableEq for Except

namespace Mrt

/-! ## Infrastructure lemmas -/

theorem strToList_append (a b : String) : (a ++ b).toList = a.toList ++ b.toList := by
  cases a; cases b; rfl

theorem strMk_toList (s : String) : String.mk s.toList = s := rfl

theorem splitPred_ne_nil (p : Char → Bool) (l : List Char) : splitPred p l ≠ [] := by
  cases l with
  | nil => simp [splitPred]
  | cons c cs =>
    simp only [splitPred]
    cases h : splitPred p cs with
    | nil => simp
    | cons g gs => by_cases hp : p c = true <;> simp [hp]

theorem splitPred_no (p : Char → Bool) (l : List Char) (h : ∀ c ∈ l, p c = false) :
    splitPred p l = [l] := by
  induction l with
  | nil => rfl
  | cons c cs ih =>
    have hc : p c = false := h c (List.mem_cons_self c cs)
    have ih2 := ih (fun x hx => h x (List.mem_cons_of_mem c hx))
    simp [splitPred, ih2, hc]

theorem splitPred_append (p : Char → Bool) (xs : List Char) (c0 : Char) (ys : List Char)
    (hxs : ∀ c ∈ xs, p c = false) (hc : p c0 = true) :
    splitPred p (xs ++ c0 :: ys) = xs :: splitPred p ys := by
  induction xs with
  | nil =>
    simp only [List.nil_append, splitPred]
    cases h : splitPred p ys with
    | nil => exact absurd h (splitPred_ne_nil p ys)
    | cons g gs => simp [hc]
  | cons x xs ih =>
    have hx : p x = false := hxs x (List.mem_cons_self x xs)
    have ih2 := ih (fun c hcm => hxs c (List.mem_cons_of_mem x hcm))
    simp [splitPred, ih2, hx]

theorem joinCh_splitPred (c : Char) (l : List Char) :
    joinCh c (splitPred (fun x => x = c) l) = l := by
  induction l with
  | nil => rfl
  | cons x xs ih =>
    simp only [splitPred]
    cases h : splitPred (fun x => x = c) xs with
    | nil => exact absurd h (splitPred_ne_nil _ xs)
    | cons g gs =>
      rw [h] at ih
      by_cases hx : x = c
      · subst hx
        simp only [decide_True, if_pos]
        show joinCh x ([] :: g :: gs) = x :: xs
        simp [joinCh, ih]
      · simp only [hx, decide_False, Bool.false_eq_true, if_neg, if_false]
        cases gs with
        | nil => simp [joinCh] at ih ⊢; simp [ih]
        | cons g2 gs2 => simp [joinCh] at ih ⊢; simp [ih]

theorem noSlash_iff (a : String) (h : a.toList.all (fun c => c ≠ '/') = true) :
    ∀ c ∈ a.toList, (decide (c = '/')) = false := by
  simp only [List.all_eq_true, decide_eq_true_eq] at h
  intro c hc
  simpa using h c hc

theorem splitSlash_ne_nil (s : String) : splitSlash s ≠ [] := by
  simp only [splitSlash, ne_eq, List.map_eq_nil_iff]
  exact splitPred_ne_nil _ _

theorem splitSlash_single (b : String) (hb : b.toList.all (fun c => c ≠ '/') = true) :
    splitSlash b = [b] := by
  simp only [splitSlash]
  rw [splitPred_no _ _ (noSlash_iff b hb)]
  simp [strMk_toList]

theorem joinSlash_single (a : String) : joinSlash [a] = a := by
  simp only [joinSlash, List.map_cons, List.map_nil, joinCh, strMk_toList]

theorem joinSlash_splitSlash (s : String) : joinSlash (splitSlash s) = s := by
  simp only [joinSlash, splitSlash, List.map_map]
  have hmm : (String.toList ∘ String.mk) = id := funext fun _ => rfl
  rw [hmm, List.map_id, joinCh_splitPred, strMk_toList]

theorem splitSlash_sep (a b : String) (ha : a.toList.all (fun c => c ≠ '/') = true) :
    splitSlash (a ++ "/" ++ b) = a :: splitSlash b := by
  have htl : (a ++ "/" ++ b).toList = a.toList ++ '/' :: b.toList := by
    rw [strToList_append, strToList_append]
    simp
  simp only [splitSlash, htl]
  rw [splitPred_append _ _ _ _ (noSlash_iff a ha) (by simp)]
  simp [strMk_toList]

theorem joinSlash_pair (a b : String) : joinSlash [a, b] = a ++ "/" ++ b := by
  have : (a ++ "/" ++ b).toList = a.toList ++ '/' :: b.toList := by
    rw [strToList_append, strToList_append]; simp
  simp only [joinSlash, List.map_cons, List.map_nil, joinCh]
  rw [show a.toList ++ '/' :: b.toList = (a ++ "/" ++ b).toList from this.symm, strMk_toList]

theorem getD_append_shift (l x : List String) (k : Nat) :
    (l ++ x).getD (l.length + k) "" = x.getD k "" := by
  simp [List.getD, List.getElem?_append_right (Nat.le_add_right l.length k),
    Nat.add_sub_cancel_left]

theorem isSimilar_self (a : String) : isSimilar a a = true := by
  simp [isSimilar]

/-- The tv loop of `findMediaRoot` on a directory of the shape
`R ++ [t, seg, f]` where `seg` is a season folder, `t` is similar to the
title, and the final segment `f` triggers neither branch: the loop returns
the joined prefix `R`. -/
theorem tvRootScan_hits (R : List String) (t seg f title origd : String)
    (hR : R ≠ []) (hsim : isSimilar t title = true) (hseg : isSeasonFolder seg = true)
    (hf1 : isSeasonFolder f = false) (hf2 : isSimilar f title = false) :
    tvRootScan (R ++ [t, seg, f]) title origd (R.length + 2) = joinSlash R := by
  have e2 : (R ++ [t, seg, f]).getD (R.length + 2) "" = f := by
    rw [getD_append_shift]; rfl
  have e1 : (R ++ [t, seg, f]).getD (R.length + 1) "" = seg := by
    rw [getD_append_shift]; rfl
  have e0 : (R ++ [t, seg, f]).getD R.length "" = t := by
    rw [show R.length = R.length + 0 from rfl, getD_append_shift]; rfl
  have hRpos : 0 < R.length := List.length_pos.mpr hR
  show tvRootScan (R ++ [t, seg, f]) title origd (R.length + 1 + 1) = joinSlash R
  rw [tvRootScan]
  have hc2 : tvRootCheck (R ++ [t, seg, f]) title (R.length + 1 + 1) = none := by
    rw [tvRootCheck]
    simp only [e2, hf1, hf2, Bool.false_and, Bool.if_false_left]
    simp
  rw [hc2]
  rw [tvRootScan]
  have hc1 : tvRootCheck (R ++ [t, seg, f]) title (R.length + 1) =
      some (joinSlash R) := by
    rw [tvRootCheck]
    have : R.length + 1 - 1 = R.length := by omega
    simp only [e1, this, e0, hseg, hsim, Bool.and_true, Bool.true_and,
      Nat.zero_lt_succ, decide_True, if_pos, List.take_left]
    simp [hRpos]
  rw [hc1]

/-- The movie loop of `findMediaRoot` on a directory of the shape
`R ++ [mf, f]` where `mf` is similar to the movie folder and the final
segment `f` matches neither the movie folder nor the title. -/
theorem movieRootScan_hits (R : List String) (mf f movieFolder title origd : String)
    (hR : R ≠ []) (hmf : isSimilar mf movieFolder = true)
    (hf1 : isSimilar f movieFolder = false) (hf2 : isSimilar f title = false) :
    movieRootScan (R ++ [mf, f]) movieFolder title origd (R.length + 1) = joinSlash R := by
  have hRpos : 0 < R.length := List.length_pos.mpr hR
  obtain ⟨m, hm⟩ : ∃ m, R.length = m + 1 := ⟨R.length - 1, by omega⟩
  have e1 : (R ++ [mf, f]).getD (m + 1 + 1) "" = f := by
    rw [← hm, getD_append_shift]; rfl
  have e0 : (R ++ [mf, f]).getD (m + 1) "" = mf := by
    rw [← hm, show R.length = R.length + 0 from rfl, getD_append_shift]; rfl
  have ht : (R ++ [mf, f]).take (m + 1) = R := by rw [← hm]; exact List.take_left R _
  rw [hm, movieRootScan]
  have hc1 : movieRootCheck (R ++ [mf, f]) movieFolder title (m + 1 + 1) = none := by
    simp only [movieRootCheck, e1, hf1, hf2]
    simp
  rw [hc1]
  show movieRootScan (R ++ [mf, f]) movieFolder title origd (m + 1) = joinSlash R
  rw [movieRootScan]
  have hc0 : movieRootCheck (R ++ [mf, f]) movieFolder title (m + 1) =
      some (joinSlash R) := by
    simp only [movieRootCheck, e0, hmf, Bool.true_or, if_pos, ht]
    rw [if_pos hRpos]
  rw [hc0]

/-- Case analysis on one wet-mode step. -/
theorem wetStep_cases (fs : List String) (r : Rename) :
    (r.fromPath ∈ fs ∧ r.toPath ∈ fs ∧ wetStep fs r = (fs, .skippedDestExists)) ∨
    (r.fromPath ∈ fs ∧ r.toPath ∉ fs ∧
      wetStep fs r = (fs.filter (fun p => p != r.fromPath) ++ [r.toPath], .success)) ∨
    (r.fromPath ∉ fs ∧ wetStep fs r = (fs, .errored)) := by
  by_cases h1 : r.fromPath ∈ fs <;> by_cases h2 : r.toPath ∈ fs <;>
    simp [wetStep, List.elem_iff, h1, h2]

/-- A path that is absent and is no entry's destination stays absent. -/
theorem runWet_not_added (x : String) (rs : List Rename) :
    ∀ fs : List String, x ∉ fs → (∀ r ∈ rs, r.toPath ≠ x) →
      x ∉ (runWetRenames fs rs).1 := by
  induction rs with
  | nil => intro fs hx _; simpa [runWetRenames] using hx
  | cons r rest ih =>
    intro fs hx hd
    have hstep : x ∉ (wetStep fs r).1 := by
      rcases wetStep_cases fs r with ⟨_, _, h⟩ | ⟨_, _, h⟩ | ⟨_, h⟩ <;> rw [h]
      · exact hx
      · simp only [List.mem_append, List.mem_filter, List.mem_singleton]
        rintro (⟨hmem, _⟩ | hEq)
        · exact hx hmem
        · exact hd r (List.mem_cons_self r rest) hEq.symm
      · exact hx
    simp only [runWetRenames]
    exact ih _ hstep (fun r2 h2 => hd r2 (List.mem_cons_of_mem _ h2))

/-- A path that is present and is no entry's source stays present. -/
theorem runWet_kept (x : String) (rs : List Rename) :
    ∀ fs : List String, x ∈ fs → (∀ r ∈ rs, r.fromPath ≠ x) →
      x ∈ (runWetRenames fs rs).1 := by
  induction rs with
  | nil => intro fs hx _; simpa [runWetRenames] using hx
  | cons r rest ih =>
    intro fs hx hd
    have hstep : x ∈ (wetStep fs r).1 := by
      rcases wetStep_cases fs r with ⟨_, _, h⟩ | ⟨_, _, h⟩ | ⟨_, h⟩ <;> rw [h]
      · exact hx
      · refine List.mem_append.mpr (Or.inl ?_)
        refine List.mem_filter.mpr ⟨hx, ?_⟩
        exact bne_iff_ne.mpr (fun hEq => hd r (List.mem_cons_self r rest) hEq.symm)
      · exact hx
    simp only [runWetRenames]
    exact ih _ hstep (fun r2 h2 => hd r2 (List.mem_cons_of_mem _ h2))

/-- When every entry's live source already has a live destination, a run
moves nothing: the state is unchanged and no outcome is a success. -/
theorem runWet_stable (rs : List Rename) :
    ∀ fs : List String, (∀ r ∈ rs, r.fromPath ∈ fs → r.toPath ∈ fs) →
      (runWetRenames fs rs).1 = fs ∧
      ∀ o ∈ (runWetRenames fs rs).2, o ≠ WetOutcome.success := by
  induction rs with
  | nil => intro fs _; simp [runWetRenames]
  | cons r rest ih =>
    intro fs hd
    rcases wetStep_cases fs r with ⟨h1, h2, hstep⟩ | ⟨h1, h2, hstep⟩ | ⟨h1, hstep⟩
    · have hr := ih fs (fun r2 h2m => hd r2 (List.mem_cons_of_mem _ h2m))
      simp only [runWetRenames, hstep]
      refine ⟨hr.1, ?_⟩
      intro o ho
      rcases List.mem_cons.mp ho with hEq | hmem
      · subst hEq; simp
      · exact hr.2 o hmem
    · exact absurd (hd r (List.mem_cons_self r rest) h1) h2
    · have hr := ih fs (fun r2 h2m => hd r2 (List.mem_cons_of_mem _ h2m))
      simp only [runWetRenames, hstep]
      refine ⟨hr.1, ?_⟩
      intro o ho
      rcases List.mem_cons.mp ho with hEq | hmem
      · subst hEq; simp
      · exact hr.2 o hmem

/-- After a run of a manifest whose destinations are disjoint from its
sources, every entry's source, if live, has a live destination. -/
theorem runWet_post (rs : List Rename) :
    ∀ fs : List String, (∀ r1 ∈ rs, ∀ r2 ∈ rs, r1.toPath ≠ r2.fromPath) →
      ∀ r ∈ rs, r.fromPath ∈ (runWetRenames fs rs).1 →
        r.toPath ∈ (runWetRenames fs rs).1 := by
  induction rs with
  | nil => intro fs _ r hr; exact absurd hr (List.not_mem_nil r)
  | cons r0 rest ih =>
    intro fs hd r hr hmem
    have hd0 : ∀ r2 ∈ rest, r2.fromPath ≠ r0.toPath :=
      fun r2 h2 => (hd r0 (List.mem_cons_self r0 rest) r2 (List.mem_cons_of_mem _ h2)).symm
    rcases List.mem_cons.mp hr with hEq | hrest
    · subst hEq
      rcases wetStep_cases fs r with ⟨h1, h2, hstep⟩ | ⟨h1, h2, hstep⟩ | ⟨h1, hstep⟩
      · simp only [runWetRenames, hstep] at *
        exact runWet_kept _ rest fs h2 hd0
      · simp only [runWetRenames, hstep] at *
        refine runWet_kept _ rest _ ?_ hd0
        exact List.mem_append.mpr (Or.inr (List.mem_singleton.mpr rfl))
      · simp only [runWetRenames, hstep] at *
        have habs : r.fromPath ∉ (runWetRenames fs rest).1 := by
          refine runWet_not_added _ rest fs h1 ?_
          intro r2 h2
          exact hd r2 (List.mem_cons_of_mem _ h2) r (List.mem_cons_self r rest)
        exact absurd hmem habs
    · have hd2 : ∀ r1 ∈ rest, ∀ r2 ∈ rest, r1.toPath ≠ r2.fromPath :=
        fun r1 h1m r2 h2m =>
          hd r1 (List.mem_cons_of_mem _ h1m) r2 (List.mem_cons_of_mem _ h2m)
      simp only [runWetRenames] at *
      exact ih _ hd2 r hrest hmem

/-- `renLines` over a concatenation: process the prefix, then the suffix
from the prefix's final state, with line numbers shifted by the prefix's
length. -/
theorem renLines_append (xs ys : List String) :
    ∀ (cf : Option String) (n : Nat),
    renLines (xs ++ ys) cf n =
      ((renLines xs cf n).1 ++
         (renLines ys (renLines xs cf n).2.2 (n + xs.length)).1,
       (renLines xs cf n).2.1 ++
         (renLines ys (renLines xs cf n).2.2 (n + xs.length)).2.1,
       (renLines ys (renLines xs cf n).2.2 (n + xs.length)).2.2) := by
  induction xs with
  | nil => intro cf n; simp [renLines]
  | cons x xs ih =>
    intro cf n
    have harith : n + 1 + xs.length = n + (xs.length + 1) := by omega
    simp only [List.cons_append, renLines, List.length_cons]
    by_cases h1 : x.data.head? = some '-'
    · simp [h1, ih, harith, List.append_assoc]
    · by_cases h2 : x.data.head? = some '+'
      · cases cf with
        | some f =>
          by_cases hf : f = ""
          · simp [h1, h2, hf, ih, harith, List.append_assoc]
          · simp [h1, h2, hf, ih, harith, List.append_assoc]
        | none => simp [h1, h2, ih, harith, List.append_assoc]
      · simp [h1, h2, ih, harith, List.append_assoc]

/-- The starting line number does not change the entries, the number of
warnings, or the final pending source of `renLines`. -/
theorem renLines_shift (ys : List String) :
    ∀ (cf : Option String) (n m : Nat),
      (renLines ys cf n).1 = (renLines ys cf m).1 ∧
      (renLines ys cf n).2.1.length = (renLines ys cf m).2.1.length ∧
      (renLines ys cf n).2.2 = (renLines ys cf m).2.2 := by
  induction ys with
  | nil => intro cf n m; simp [renLines]
  | cons x xs ih =>
    intro cf n m
    simp only [renLines]
    by_cases h1 : x.data.head? = some '-'
    · have h := ih (some ⟨x.data.tail⟩) (n + 1) (m + 1)
      cases cf <;> simp [h1, h.1, h.2.1, h.2.2]
    · by_cases h2 : x.data.head? = some '+'
      · cases cf with
        | some f =>
          by_cases hf : f = ""
          · subst hf
            have h := ih (some "") (n + 1) (m + 1)
            simp [h1, h2, h.1, h.2.1, h.2.2]
          · have h := ih none (n + 1) (m + 1)
            simp [h1, h2, hf, h.1, h.2.1, h.2.2]
        | none =>
          have h := ih none (n + 1) (m + 1)
          simp [h1, h2, h.1, h.2.1, h.2.2]
      · have h := ih cf (n + 1) (m + 1)
        simp [h1, h2, h.1, h.2.1, h.2.2]

/-! ## Claim theorems -/

/-- **C5.** The filename `Breaking.Bad.S01E01.Pilot.1080p.mkv` parses
statically (for every current year) to a tv record with title
"Breaking Bad", season 1, episode 1, episode title "Pilot", extension
`.mkv`, and canonicalizing that record from original directory `/media/TV`
yields exactly
`/media/TV/Breaking Bad/Season 01/Breaking Bad - S01E01 - Pilot.mkv`. -/
theorem c5_breaking_bad_pipeline : ∀ currentYear : Nat,
    parseFilename currentYear "Breaking.Bad.S01E01.Pilot.1080p.mkv" =
      some { type := .tv, title := "Breaking Bad", year := none, season := some 1,
             episode := some 1, episodeTitle := some "Pilot", extension := ".mkv",
             originalPath := "Breaking.Bad.S01E01.Pilot.1080p.mkv" } ∧
    generateNewPath
      { type := .tv, title := "Breaking Bad", year := none, season := some 1,
        episode := some 1, episodeTitle := some "Pilot", extension := ".mkv",
        originalPath := "Breaking.Bad.S01E01.Pilot.1080p.mkv" } "/media/TV" =
      .ok "/media/TV/Breaking Bad/Season 01/Breaking Bad - S01E01 - Pilot.mkv" :=
  fun _ => ⟨rfl, by decide⟩

/-- **C9.** For *every* tv record whose season or episode field is present
but zero, `generateTVFilename` throws `'Invalid TV show info'` (its guard
`!info.season || !info.episode` treats the value 0 as missing); and such
records are reachable: `Show.S00E01.mkv` statically parses (for every
current year) to a tv record with season 0 and episode 1, the dry-mode
builder's validation — which only rejects `undefined` season/episode, not
zero — passes it through, and the run on this single file throws. -/
theorem c9_season_zero_reachable_and_throws :
    (∀ info : MediaInfo, info.type = .tv →
      info.season = some 0 ∨ info.episode = some 0 →
      generateTVFilename info = .error "Invalid TV show info") ∧
    (∀ currentYear : Nat,
      parseFilename currentYear "Show.S00E01.mkv" =
        some { type := .tv, title := "Show", year := none, season := some 0,
               episode := some 1, episodeTitle := none, extension := ".mkv",
               originalPath := "Show.S00E01.mkv" } ∧
      runDryMode (fun _ => none) (fun _ => []) currentYear ["Show.S00E01.mkv"] =
        .error "Invalid TV show info") := by
  constructor
  · intro info hty hzero
    rcases info with ⟨ty, title, yr, sea, epi, et, ext, op⟩
    simp only at hty hzero
    subst hty
    rcases hzero with hs | he
    · subst hs
      cases epi with
      | none => rfl
      | some e =>
        cases e with
        | zero => rfl
        | succ e2 => rfl
    · subst he
      cases sea with
      | none => rfl
      | some s =>
        cases s with
        | zero => rfl
        | succ s2 => rfl
  · exact fun _ => ⟨rfl, rfl⟩

/-- Witness for `c9_season_zero_reachable_and_throws`: the hypotheses of
the universal part discharged at a season-0 record (the one
`Show.S00E01.mkv` parses to) and at an episode-0 record. -/
theorem c9_season_zero_reachable_and_throws_witness :
    generateTVFilename
      { type := .tv, title := "Show", year := none, season := some 0,
        episode := some 1, episodeTitle := none, extension := ".mkv",
        originalPath := "Show.S00E01.mkv" } = .error "Invalid TV show info" ∧
    generateTVFilename
      { type := .tv, title := "Show", year := none, season := some 2,
        episode := some 0, episodeTitle := none, extension := ".mkv",
        originalPath := "Show.S02E00.mkv" } = .error "Invalid TV show info" :=
  ⟨c9_season_zero_reachable_and_throws.1
      { type := .tv, title := "Show", year := none, season := some 0,
        episode := some 1, episodeTitle := none, extension := ".mkv",
        originalPath := "Show.S00E01.mkv" } rfl (Or.inl rfl),
   c9_season_zero_reachable_and_throws.1
      { type := .tv, title := "Show", year := none, season := some 2,
        episode := some 0, episodeTitle := none, extension := ".mkv",
        originalPath := "Show.S02E00.mkv" } rfl (Or.inr rfl)⟩

/-- **C4.** Evaluation of the code at the failing input: with
`Show.S00E01.mkv` in the input list, the manifest builder throws
`'Invalid TV show info'` and aborts the batch — the following file
(`Other.S01E02.mkv`, perfectly parseable) is never processed, contradicting
the claim that no input file's outcome terminates the batch early. -/
theorem c4_batch_aborts_on_season_zero :
    runDryMode (fun _ => none) (fun _ => []) 2025
      ["Show.S00E01.mkv", "Other.S01E02.mkv"] = .error "Invalid TV show info" := by
  decide

/-- **C1, counterexample.** Canonicalization is not convergent: for the
movie record `Foo (2021)` (extension `.mkv`) and directory
`/m/Foo/Foo (2021)`, the first canonicalization yields
`/m/Foo/Foo (2021).mkv` (the de-nesting pass drops the titled folder and
keeps the bare `Foo` ancestor) while canonicalizing that output again
yields `/m/Foo (2021)/Foo (2021).mkv`, a different path. -/
theorem c1_counterexample :
    generateNewPath
      { type := .movie, title := "Foo", year := some 2021, extension := ".mkv",
        originalPath := "/m/Foo/Foo (2021)/Foo.2021.mkv" } "/m/Foo/Foo (2021)" =
      .ok "/m/Foo/Foo (2021).mkv" ∧
    generateNewPath
      { type := .movie, title := "Foo", year := some 2021, extension := ".mkv",
        originalPath := "/m/Foo/Foo (2021)/Foo.2021.mkv" } "/m/Foo/Foo (2021).mkv" =
      .ok "/m/Foo (2021)/Foo (2021).mkv" ∧
    ("/m/Foo/Foo (2021).mkv" : String) ≠ "/m/Foo (2021)/Foo (2021).mkv" := by
  refine ⟨by decide, by decide, by decide⟩

/-- **C2, counterexample.** The applier is not idempotent for every
manifest: for the swap manifest `A→B, B→A` over the filesystem `{A}`, the
first run performs two successful moves and restores the starting state, so
the second run performs the same two moves again — not zero moves, and not
every entry skipped. -/
theorem c2_counterexample :
    runWetRenames ["A"] [⟨"A", "B"⟩, ⟨"B", "A"⟩] =
      (["A"], [.success, .success]) ∧
    runWetRenames (runWetRenames ["A"] [⟨"A", "B"⟩, ⟨"B", "A"⟩]).1
        [⟨"A", "B"⟩, ⟨"B", "A"⟩] = (["A"], [.success, .success]) ∧
    WetOutcome.success ∈
      (runWetRenames (runWetRenames ["A"] [⟨"A", "B"⟩, ⟨"B", "A"⟩]).1
        [⟨"A", "B"⟩, ⟨"B", "A"⟩]).2 := by
  refine ⟨by decide, by decide, by decide⟩

/-- **C3, counterexample.** The de-nesting pass does not keep the more
complete (later) segment when the predecessor is similar: it maps
`Foo/Foo (2021)` to `Foo`, not to `Foo (2021)` (the first similarity
branch skips the *current* segment). -/
theorem c3_counterexample :
    fixDoubleNesting "Foo/Foo (2021)" = "Foo" ∧ ("Foo" : String) ≠ "Foo (2021)" := by
  refine ⟨by decide, by decide⟩

/-- **C7, counterexample.** A valid tv identity (type tv, season and
episode present) with season 100 renders the season at width 3 — `S100`
and `Season 100` — so season/episode are not always rendered as exactly
two digits. -/
theorem c7_counterexample :
    generateTVFilename
      { type := .tv, title := "Foo", season := some 100, episode := some 12,
        extension := ".mkv", originalPath := "x" } =
      .ok "Foo/Season 100/Foo - S100E12.mkv" ∧
    (padStart2Zero (Nat.repr 100)).length ≠ 2 := by
  refine ⟨by decide, by decide⟩

/-- **C10, counterexample.** For a primary file without an extension
(`d/movie`, reachable in `--list` mode), `mediaBasename.slice(0, -0)`
evaluates to the empty string, so a sibling `.en.srt` is returned as an
associated file even though its base name `.en` neither equals the
primary's base name `movie` nor extends it with `.` or `-`. -/
theorem c10_counterexample :
    findAssociatedFiles (fun _ => [(".en.srt", true)]) "d/movie" = ["d/.en.srt"] ∧
    pathBasename "d/movie" = "movie" ∧
    jsSliceToNeg ".en.srt" (lowerStr (pathExtname ".en.srt")).length = ".en" ∧
    (".en" : String) ≠ "movie" ∧
    strStarts ".en" ("movie" ++ ".") = false ∧
    strStarts ".en" ("movie" ++ "-") = false := by
  refine ⟨by decide, by decide, by decide, by decide, by decide, by decide⟩

/-- **C1, amended.** Canonicalization is idempotent whenever the first pass
is already stable: if the de-nesting pass leaves the joined path (media
root + relative layout) unchanged, and that joined path splits as the media
root's segments followed by the freshly generated segments (for tv:
title / season folder / filename with the filename neither season-like nor
similar to the title; for movies: a folder similar to the movie folder
followed by a filename similar to neither the movie folder nor the title),
then re-canonicalizing the output returns it unchanged.  Outside these
provisos idempotence fails (see the counterexample). -/
theorem c1_amended :
    (∀ (info : MediaInfo) (d rel seg f : String),
      info.type = .tv →
      generateTVFilename info = .ok rel →
      isSeasonFolder seg = true →
      isSeasonFolder f = false →
      isSimilar f info.title = false →
      splitSlash (pathJoin (findMediaRoot d info) rel) =
        splitSlash (findMediaRoot d info) ++ [info.title, seg, f] →
      fixDoubleNesting (pathJoin (findMediaRoot d info) rel) =
        pathJoin (findMediaRoot d info) rel →
      generateNewPath info d = .ok (pathJoin (findMediaRoot d info) rel) ∧
      generateNewPath info (pathJoin (findMediaRoot d info) rel) =
        generateNewPath info d) ∧
    (∀ (info : MediaInfo) (d rel mf f : String),
      info.type = .movie →
      generateMovieFilename info = .ok rel →
      isSimilar mf (movieFolderOf info) = true →
      isSimilar f (movieFolderOf info) = false →
      isSimilar f info.title = false →
      splitSlash (pathJoin (findMediaRoot d info) rel) =
        splitSlash (findMediaRoot d info) ++ [mf, f] →
      fixDoubleNesting (pathJoin (findMediaRoot d info) rel) =
        pathJoin (findMediaRoot d info) rel →
      generateNewPath info d = .ok (pathJoin (findMediaRoot d info) rel) ∧
      generateNewPath info (pathJoin (findMediaRoot d info) rel) =
        generateNewPath info d) := by
  constructor
  · intro info d rel seg f hty hrel hseg hf1 hf2 hshape hfix
    set r := findMediaRoot d info with hr
    have hroot2 : findMediaRoot (pathJoin r rel) info = r := by
      simp only [findMediaRoot, hty]
      rw [hshape]
      have hlen : (splitSlash r ++ [info.title, seg, f]).length - 1 =
          (splitSlash r).length + 2 := by
        simp
      rw [hlen]
      rw [tvRootScan_hits _ _ _ _ _ _ (splitSlash_ne_nil r) (isSimilar_self info.title)
        hseg hf1 hf2]
      exact joinSlash_splitSlash r
    constructor
    · simp only [generateNewPath, hty]
      rw [hrel]
      simp only [← hr]
      rw [hfix]
    · simp only [generateNewPath, hty]
      rw [hrel]
      simp only [← hr, hroot2]
  · intro info d rel mf f hty hrel hmf hf1 hf2 hshape hfix
    set r := findMediaRoot d info with hr
    have hroot2 : findMediaRoot (pathJoin r rel) info = r := by
      simp only [findMediaRoot, hty]
      rw [hshape]
      have hlen : (splitSlash r ++ [mf, f]).length - 1 = (splitSlash r).length + 1 := by
        simp
      rw [hlen]
      rw [movieRootScan_hits _ _ _ _ _ _ (splitSlash_ne_nil r) hmf hf1 hf2]
      exact joinSlash_splitSlash r
    constructor
    · simp only [generateNewPath, hty]
      rw [hrel]
      simp only [← hr]
      rw [hfix]
    · simp only [generateNewPath, hty]
      rw [hrel]
      simp only [← hr, hroot2]

/-- Witness for `c1_amended`: a tv identity canonicalized from `/media` and
a movie identity canonicalized from `/m`, with every hypothesis checked by
evaluation. -/
theorem c1_amended_witness :
    (generateNewPath
        { type := .tv, title := "Foo", season := some 1, episode := some 1,
          extension := ".mkv", originalPath := "z" } "/media" =
      .ok (pathJoin
        (findMediaRoot "/media"
          { type := .tv, title := "Foo", season := some 1, episode := some 1,
            extension := ".mkv", originalPath := "z" })
        "Foo/Season 01/Foo - S01E01.mkv") ∧
     generateNewPath
        { type := .tv, title := "Foo", season := some 1, episode := some 1,
          extension := ".mkv", originalPath := "z" }
        (pathJoin
          (findMediaRoot "/media"
            { type := .tv, title := "Foo", season := some 1, episode := some 1,
              extension := ".mkv", originalPath := "z" })
          "Foo/Season 01/Foo - S01E01.mkv") =
      generateNewPath
        { type := .tv, title := "Foo", season := some 1, episode := some 1,
          extension := ".mkv", originalPath := "z" } "/media") ∧
    (generateNewPath
        { type := .movie, title := "Bar", year := some 2020,
          extension := ".mkv", originalPath := "w" } "/m" =
      .ok (pathJoin
        (findMediaRoot "/m"
          { type := .movie, title := "Bar", year := some 2020,
            extension := ".mkv", originalPath := "w" })
        "Bar (2020)/Bar (2020).mkv") ∧
     generateNewPath
        { type := .movie, title := "Bar", year := some 2020,
          extension := ".mkv", originalPath := "w" }
        (pathJoin
          (findMediaRoot "/m"
            { type := .movie, title := "Bar", year := some 2020,
              extension := ".mkv", originalPath := "w" })
          "Bar (2020)/Bar (2020).mkv") =
      generateNewPath
        { type := .movie, title := "Bar", year := some 2020,
          extension := ".mkv", originalPath := "w" } "/m") :=
  ⟨c1_amended.1
      { type := .tv, title := "Foo", season := some 1, episode := some 1,
        extension := ".mkv", originalPath := "z" }
      "/media" "Foo/Season 01/Foo - S01E01.mkv" "Season 01" "Foo - S01E01.mkv"
      rfl (by decide) (by decide) (by decide) (by decide) (by decide) (by decide),
   c1_amended.2
      { type := .movie, title := "Bar", year := some 2020,
        extension := ".mkv", originalPath := "w" }
      "/m" "Bar (2020)/Bar (2020).mkv" "Bar (2020)" "Bar (2020).mkv"
      rfl (by decide) (by decide) (by decide) (by decide) (by decide) (by decide)⟩

/-- **C3, amended.** The de-nesting pass keeps the *earlier* segment when
consecutive segments are similar: `Title/Title (Year)` collapses to
`Title` whenever the title is similar to its year-suffixed form (the usual
case), not to `Title (Year)` as claimed.  `Show/Show/Season 01` does
collapse to `Show/Season 01`, provided the show segment is not itself
similar to `Season 01`. -/
theorem c3_amended :
    (∀ t y : String, t.toList.all (fun c => c ≠ '/') = true →
      y.toList.all isDigitChar = true →
      isSimilar t (t ++ " (" ++ y ++ ")") = true →
      fixDoubleNesting (t ++ "/" ++ (t ++ " (" ++ y ++ ")")) = t) ∧
    (∀ s : String, s.toList.all (fun c => c ≠ '/') = true →
      isSimilar s "Season 01" = false →
      fixDoubleNesting (s ++ "/" ++ s ++ "/" ++ "Season 01") = s ++ "/" ++ "Season 01") := by
  constructor
  · intro t y ht hy hsim
    have hy2 : y.toList.all (fun c => c ≠ '/') = true := by
      simp only [List.all_eq_true] at hy ⊢
      intro c hc
      have hd := hy c hc
      simp only [decide_eq_true_eq]
      intro hcontra
      subst hcontra
      exact absurd hd (by decide)
    have hu : (t ++ " (" ++ y ++ ")").toList.all (fun c => c ≠ '/') = true := by
      have ht2 : ∀ x ∈ t.toList, ¬ x = '/' := by simpa [List.all_eq_true] using ht
      have hy3 : ∀ x ∈ y.toList, ¬ x = '/' := by simpa [List.all_eq_true] using hy2
      simp only [strToList_append, List.all_append, Bool.and_eq_true, List.all_eq_true,
        decide_eq_true_eq]
      exact ⟨⟨⟨ht2, by decide⟩, hy3⟩, by decide⟩
    rw [fixDoubleNesting, splitSlash_sep t _ ht, splitSlash_single _ hu]
    simp only [fixDNGo, hsim, if_pos]
    simp [joinSlash_single]
  · intro s hs hns
    have hassoc : s ++ "/" ++ s ++ "/" ++ "Season 01" =
        s ++ "/" ++ (s ++ "/" ++ "Season 01") := by
      simp [String.append_assoc]
    have hseason : ("Season 01" : String).toList.all (fun c => c ≠ '/') = true := by
      decide
    rw [fixDoubleNesting, hassoc, splitSlash_sep s _ hs, splitSlash_sep s _ hs,
      splitSlash_single _ hseason]
    have hb : (normalizeForComparison s == normalizeForComparison "Season 01") = false := by
      simp only [isSimilar, Bool.or_eq_false_iff] at hns
      exact hns.1
    have hstrip : String.mk (stripParenYearEnd ("Season 01" : String).toList) =
        "Season 01" := by decide
    simp only [fixDNGo, isSimilar_self, if_pos, hns, hstrip, hb, Bool.false_eq_true,
      if_neg, if_false, List.reverse_cons, List.reverse_nil, List.nil_append,
      List.cons_append]
    rw [joinSlash_pair]

/-- Witness for `c3_amended`, at the spec's own examples. -/
theorem c3_amended_witness :
    fixDoubleNesting ("Title" ++ "/" ++ ("Title" ++ " (" ++ "2024" ++ ")")) = "Title" ∧
    fixDoubleNesting ("Show" ++ "/" ++ "Show" ++ "/" ++ "Season 01") =
      "Show" ++ "/" ++ "Season 01" :=
  ⟨c3_amended.1 "Title" "2024" (by decide) (by decide) (by decide),
   c3_amended.2 "Show" (by decide) (by decide)⟩

/-- **C10, amended.** When the primary file's (lowercased) extension is a
recognized video extension, every path returned by the associated-file
resolver is a sibling entry of the primary's directory whose extension is
in the associated set and not in the video set (in particular it is never
the primary file itself), and whose base name equals the primary's base
name or extends it immediately with `.` or `-`.  Without that proviso the
base-name property can fail (see the counterexample). -/
theorem c10_amended (listDir : String → List (String × Bool)) (mfp p : String)
    (hvid : VALID_VIDEO_EXTENSIONS.contains
      (lowerStr (pathExtname (pathBasename mfp))) = true)
    (hp : p ∈ findAssociatedFiles listDir mfp) :
    ∃ name, (name, true) ∈ listDir (pathDirname mfp) ∧
      p = pathJoin (pathDirname mfp) name ∧
      ASSOCIATED_FILE_EXTENSIONS.contains (lowerStr (pathExtname name)) = true ∧
      VALID_VIDEO_EXTENSIONS.contains (lowerStr (pathExtname name)) = false ∧
      name ≠ pathBasename mfp ∧
      (jsSliceToNeg name (lowerStr (pathExtname name)).length =
         jsSliceToNeg (pathBasename mfp)
           (lowerStr (pathExtname (pathBasename mfp))).length ∨
       strStarts (jsSliceToNeg name (lowerStr (pathExtname name)).length)
         (jsSliceToNeg (pathBasename mfp)
           (lowerStr (pathExtname (pathBasename mfp))).length ++ ".") = true ∨
       strStarts (jsSliceToNeg name (lowerStr (pathExtname name)).length)
         (jsSliceToNeg (pathBasename mfp)
           (lowerStr (pathExtname (pathBasename mfp))).length ++ "-") = true) := by
  simp only [findAssociatedFiles, List.mem_map, List.mem_filter] at hp
  obtain ⟨e, ⟨hmem, hpred⟩, hjoin⟩ := hp
  simp only [Bool.and_eq_true, Bool.not_eq_true', Bool.or_eq_true, beq_iff_eq] at hpred
  obtain ⟨hfile, ⟨hnvid, hassoc⟩, hname⟩ := hpred
  refine ⟨e.1, ?_, ?_, hassoc, hnvid, ?_, ?_⟩
  · have he : e = (e.1, true) := by
      cases e with
      | mk a b => simp only at hfile; rw [hfile]
    rw [← he]
    exact hmem
  · exact hjoin.symm
  · intro hEq
    rw [hEq] at hnvid
    rw [hnvid] at hvid
    exact Bool.false_ne_true hvid
  · rcases hname with (h | h) | h
    · exact Or.inl h
    · exact Or.inr (Or.inl h)
    · exact Or.inr (Or.inr h)

/-- Witness for `c10_amended`: the subtitle `Show.S01E01.en.srt` next to
the primary `d/Show.S01E01.mkv`. -/
theorem c10_amended_witness :
    VALID_VIDEO_EXTENSIONS.contains
      (lowerStr (pathExtname (pathBasename "d/Show.S01E01.mkv"))) = true ∧
    "d/Show.S01E01.en.srt" ∈
      findAssociatedFiles (fun _ => [("Show.S01E01.en.srt", true)])
        "d/Show.S01E01.mkv" ∧
    (∃ name,
      (name, true) ∈
        (fun (_ : String) => [("Show.S01E01.en.srt", true)])
          (pathDirname "d/Show.S01E01.mkv") ∧
      "d/Show.S01E01.en.srt" = pathJoin (pathDirname "d/Show.S01E01.mkv") name ∧
      ASSOCIATED_FILE_EXTENSIONS.contains (lowerStr (pathExtname name)) = true ∧
      VALID_VIDEO_EXTENSIONS.contains (lowerStr (pathExtname name)) = false ∧
      name ≠ pathBasename "d/Show.S01E01.mkv" ∧
      (jsSliceToNeg name (lowerStr (pathExtname name)).length =
         jsSliceToNeg (pathBasename "d/Show.S01E01.mkv")
           (lowerStr (pathExtname (pathBasename "d/Show.S01E01.mkv"))).length ∨
       strStarts (jsSliceToNeg name (lowerStr (pathExtname name)).length)
         (jsSliceToNeg (pathBasename "d/Show.S01E01.mkv")
           (lowerStr (pathExtname (pathBasename "d/Show.S01E01.mkv"))).length ++ ".")
         = true ∨
       strStarts (jsSliceToNeg name (lowerStr (pathExtname name)).length)
         (jsSliceToNeg (pathBasename "d/Show.S01E01.mkv")
           (lowerStr (pathExtname (pathBasename "d/Show.S01E01.mkv"))).length ++ "-")
         = true)) :=
  ⟨by decide, by decide,
   c10_amended (fun _ => [("Show.S01E01.en.srt", true)]) "d/Show.S01E01.mkv"
     "d/Show.S01E01.en.srt" (by decide) (by decide)⟩

/-- **C2, amended.** The applier never overwrites an existing destination
(the entry is skipped or errored and the filesystem is unchanged), and for
manifests in which no entry's destination is any entry's source (no
chained or cyclic renames), a second run over the first run's final state
moves nothing: the state is unchanged and no entry's outcome is a success
(each is skipped for an existing destination or errored for a missing
source, both counted as errors). -/
theorem c2_amended :
    (∀ (fs : List String) (r : Rename), r.toPath ∈ fs →
      (wetStep fs r).1 = fs ∧ (wetStep fs r).2 ≠ WetOutcome.success) ∧
    (∀ (fs : List String) (rs : List Rename),
      (∀ r1 ∈ rs, ∀ r2 ∈ rs, r1.toPath ≠ r2.fromPath) →
      (runWetRenames (runWetRenames fs rs).1 rs).1 = (runWetRenames fs rs).1 ∧
      ∀ o ∈ (runWetRenames (runWetRenames fs rs).1 rs).2,
        o ≠ WetOutcome.success) := by
  constructor
  · intro fs r hto
    rcases wetStep_cases fs r with ⟨_, _, hstep⟩ | ⟨_, h2, _⟩ | ⟨_, hstep⟩
    · rw [hstep]; exact ⟨rfl, by simp⟩
    · exact absurd hto h2
    · rw [hstep]; exact ⟨rfl, by simp⟩
  · intro fs rs hd
    exact runWet_stable rs (runWetRenames fs rs).1 (runWet_post rs fs hd)

/-- Witness for `c2_amended`: an existing destination is skipped without
touching the filesystem, and the chain-free manifest `A→B` applied twice
from `{A}` performs no move on the second run. -/
theorem c2_amended_witness :
    ((wetStep ["X"] ⟨"Y", "X"⟩).1 = ["X"] ∧
      (wetStep ["X"] ⟨"Y", "X"⟩).2 ≠ WetOutcome.success) ∧
    ((runWetRenames (runWetRenames ["A"] [⟨"A", "B"⟩]).1 [⟨"A", "B"⟩]).1 =
        (runWetRenames ["A"] [⟨"A", "B"⟩]).1 ∧
      ∀ o ∈ (runWetRenames (runWetRenames ["A"] [⟨"A", "B"⟩]).1 [⟨"A", "B"⟩]).2,
        o ≠ WetOutcome.success) :=
  ⟨c2_amended.1 ["X"] ⟨"Y", "X"⟩ (by decide),
   c2_amended.2 ["A"] [⟨"A", "B"⟩] (by decide)⟩

/-- **C6.** For every filename on which the TV and parenthesized-year rules
fail and the bare-year rule matches with year `y`, the static parser
produces a movie record if and only if `1900 ≤ y ≤ currentYear + 3`;
outside that range it produces nothing. -/
theorem c6_bare_year_boundary (currentYear : Nat) (fp t : String) (y : Nat)
    (h1 : tvMatch (nameWithoutExtOf fp) = none)
    (h2 : movieParenMatch (nameWithoutExtOf fp) = none)
    (h3 : bareYearMatch (nameWithoutExtOf fp) = some (t, y)) :
    parseFilename currentYear fp =
      (if 1900 ≤ y && y ≤ currentYear + 3 then
        some { type := .movie, title := cleanTitle t, year := some y,
               extension := extensionOf fp, originalPath := fp }
      else none) := by
  simp only [parseFilename, h1, h2, h3]

/-- Witness for `c6_bare_year_boundary`: the year 1899 is rejected at the
boundary and 1900 is accepted, on concrete filenames reaching the
bare-year rule. -/
theorem c6_bare_year_boundary_witness :
    tvMatch (nameWithoutExtOf "Old.Movie.1899.mkv") = none ∧
    movieParenMatch (nameWithoutExtOf "Old.Movie.1899.mkv") = none ∧
    bareYearMatch (nameWithoutExtOf "Old.Movie.1899.mkv") = some ("Old.Movie", 1899) ∧
    parseFilename 2025 "Old.Movie.1899.mkv" = none ∧
    parseFilename 2025 "Old.Movie.1900.mkv" =
      some { type := .movie, title := "Old Movie", year := some 1900,
             extension := ".mkv", originalPath := "Old.Movie.1900.mkv" } := by
  refine ⟨by decide, by decide, by decide, ?_, ?_⟩
  · have h := c6_bare_year_boundary 2025 "Old.Movie.1899.mkv" "Old.Movie" 1899
      (by decide) (by decide) (by decide)
    rw [h]; decide
  · have h := c6_bare_year_boundary 2025 "Old.Movie.1900.mkv" "Old.Movie" 1900
      (by decide) (by decide) (by decide)
    rw [h]; decide

/-- **C8.** A `+` line with no pending `-` (the parse state before it has
no unmatched source) contributes zero entries and one
`plusWithoutMinus` structural warning at its own line number, and every
well-formed pair elsewhere still yields its entry: the parsed entries are
exactly those of the manifest without that line, and the warning list
grows by exactly one. -/
theorem c8_plus_without_minus (pre post : List String) (d : String)
    (hpre : (renLines pre none 0).2.2 = none) :
    (parseRenamesLines (pre ++ ("+" ++ d) :: post)).1 =
      (parseRenamesLines (pre ++ post)).1 ∧
    RenameWarn.plusWithoutMinus (pre.length + 1) ∈
      (parseRenamesLines (pre ++ ("+" ++ d) :: post)).2 ∧
    (parseRenamesLines (pre ++ ("+" ++ d) :: post)).2.length =
      (parseRenamesLines (pre ++ post)).2.length + 1 := by
  have hplus : ("+" ++ d).data.head? = some '+' := by
    have : ("+" ++ d).data = '+' :: d.data := rfl
    rw [this]; rfl
  have hminus : ¬ ("+" ++ d).data.head? = some '-' := by
    rw [hplus]; simp
  have hmid : renLines (("+" ++ d) :: post) none pre.length =
      ((renLines post none (pre.length + 1)).1,
       RenameWarn.plusWithoutMinus (pre.length + 1) ::
         (renLines post none (pre.length + 1)).2.1,
       (renLines post none (pre.length + 1)).2.2) := by
    simp [renLines, hplus, hminus]
  have hA := renLines_append pre (("+" ++ d) :: post) none 0
  have hB := renLines_append pre post none 0
  rw [hpre] at hA hB
  simp only [Nat.zero_add] at hA hB
  rw [hmid] at hA
  have hsh := renLines_shift post none (pre.length + 1) pre.length
  simp only [parseRenamesLines, hA, hB]
  refine ⟨?_, ?_, ?_⟩
  · rw [hsh.1]
  · simp
  · rw [hsh.2.2]
    simp [hsh.2.1]
    cases (renLines post none pre.length).2.2 <;> simp [hsh.2.1] <;> omega

/-- Witness for `c8_plus_without_minus`: an orphan `+x` as line 3 between
two well-formed pairs. -/
theorem c8_plus_without_minus_witness :
    (parseRenamesLines (["-a", "+b"] ++ ("+" ++ "x") :: ["-c", "+d"])).1 =
      (parseRenamesLines (["-a", "+b"] ++ ["-c", "+d"])).1 ∧
    RenameWarn.plusWithoutMinus 3 ∈
      (parseRenamesLines (["-a", "+b"] ++ ("+" ++ "x") :: ["-c", "+d"])).2 ∧
    (parseRenamesLines (["-a", "+b"] ++ ("+" ++ "x") :: ["-c", "+d"])).2.length =
      (parseRenamesLines (["-a", "+b"] ++ ["-c", "+d"])).2.length + 1 :=
  c8_plus_without_minus ["-a", "+b"] ["-c", "+d"] "x" (by decide)

/-- `padStart(2, '0')` of the decimal representation of `n < 100` has
length exactly 2. -/
theorem padStart2Zero_repr_len : ∀ n : Nat, n < 100 →
    (padStart2Zero (Nat.repr n)).length = 2 := by decide

/-- **C7, amended.** For every valid tv identity whose season and episode
lie in 1..99, the generated path renders both as exactly two zero-padded
digits (`S03`, `Season 03`, `E12`); a value of 100 or more renders at its
natural width instead (see the counterexample). -/
theorem c7_amended (i : MediaInfo) (s e : Nat) (hty : i.type = .tv)
    (hs : i.season = some s) (he : i.episode = some e)
    (hs1 : 1 ≤ s) (hs99 : s ≤ 99) (he1 : 1 ≤ e) (he99 : e ≤ 99) :
    generateTVFilename i =
      .ok (pathJoin (i.title ++ "/Season " ++ padStart2Zero (Nat.repr s))
        (i.title ++ " - S" ++ padStart2Zero (Nat.repr s) ++ "E" ++ padStart2Zero (Nat.repr e)
          ++ (match i.episodeTitle with
              | some t => if t = "" then "" else " - " ++ t
              | none => "")
          ++ i.extension)) ∧
    (padStart2Zero (Nat.repr s)).length = 2 ∧
    (padStart2Zero (Nat.repr e)).length = 2 := by
  obtain ⟨sm, rfl⟩ : ∃ m, s = m + 1 := ⟨s - 1, by omega⟩
  obtain ⟨em, rfl⟩ : ∃ m, e = m + 1 := ⟨e - 1, by omega⟩
  refine ⟨?_, padStart2Zero_repr_len _ (by omega), padStart2Zero_repr_len _ (by omega)⟩
  rcases i with ⟨ty, title, yr, sea, epi, et, ext, op⟩
  simp only at hty hs he
  subst hty
  subst hs
  subst he
  simp [generateTVFilename]

/-- Witness for `c7_amended`: season 3 renders as `S03`/`Season 03` and
episode 12 as `E12`. -/
theorem c7_amended_witness :
    generateTVFilename
      { type := .tv, title := "Foo", season := some 3, episode := some 12,
        extension := ".mkv", originalPath := "x" } =
      .ok "Foo/Season 03/Foo - S03E12.mkv" ∧
    (padStart2Zero (Nat.repr 3)).length = 2 ∧
    (padStart2Zero (Nat.repr 12)).length = 2 := by
  have h := c7_amended
    { type := .tv, title := "Foo", season := some 3, episode := some 12,
      extension := ".mkv", originalPath := "x" } 3 12 rfl rfl rfl
    (by decide) (by decide) (by decide) (by decide)
  exact ⟨by rw [h.1]; decide, h.2.1, h.2.2⟩

end Mrt
